import Mathlib

/-!
Shallow embedding of the stactools-noaa-hrrr repository (`src/stactools/noaa_hrrr/`)
for verification of its natural-language specification.

The embedding translates `constants.py`, the cycle-run-hour check of
`stac.py:create_item`, and the batch fan-out of `inventory.py:generate_inventory_csv_gzs`
into executable Lean definitions.  Python `int` is modelled as `Int`; functions that
`raise` are modelled with `Except String`.  Strings are modelled as `List Char`
where parsing-level reasoning is needed.  The two regular expressions of
`Variable.format_forecast_valid_string` are modelled by hand-written search
functions implementing the leftmost-search / greedy-group semantics of Python
`re.search` for these specific patterns, under the assumption that patterns are
single-line (Python `.` does not match a newline; reference-inventory patterns
contain none).
-/

namespace NoaaHrrr

/-- Embeds `constants.py` `EXTENDED_FORECAST_MAX_HOUR = 48`. -/
def EXTENDED_FORECAST_MAX_HOUR : Int := 48

/-- Embeds `constants.py` `STANDARD_FORECAST_MAX_HOUR = 18`. -/
def STANDARD_FORECAST_MAX_HOUR : Int := 18

/-- Embeds `constants.py` `class Region(StrEnum)`. -/
inductive Region where
  | conus
  | alaska
deriving DecidableEq, Fintype

/-- The string value of each `Region` member. -/
def Region.value : Region → String
  | .conus => "conus"
  | .alaska => "alaska"

/-- Embeds `constants.py` `class Product(StrEnum)`. -/
inductive Product where
  | pressure
  | native
  | surface
  | sub_hourly
deriving DecidableEq, Fintype

/-- The string value of each `Product` member. -/
def Product.value : Product → String
  | .pressure => "prs"
  | .native => "nat"
  | .surface => "sfc"
  | .sub_hourly => "subh"

/-- Embeds `constants.py` `class ForecastHourSet(StrEnum)`. -/
inductive ForecastHourSet where
  | FH00
  | FH01_18
  | FH00_01
  | FH02_48
deriving DecidableEq

/-- The string value of each `ForecastHourSet` member. -/
def ForecastHourSet.value : ForecastHourSet → String
  | .FH00 => "fh00"
  | .FH01_18 => "fh01-18"
  | .FH00_01 => "fh00-01"
  | .FH02_48 => "fh02-48"

/-- Embeds `constants.py` `ForecastHourSet.from_forecast_hour_and_product`:
raises `ValueError("integer must within 0-48")` outside 0-48; for `sub_hourly`
returns `FH00` when the hour is 0 and `FH01_18` otherwise; for every other
product returns `FH00_01` when the hour is below 2 and `FH02_48` otherwise. -/
def ForecastHourSet.from_forecast_hour_and_product
    (forecast_hour : Int) (product : Product) : Except String ForecastHourSet :=
  if ¬ (0 ≤ forecast_hour ∧ forecast_hour ≤ 48) then
    Except.error "integer must within 0-48"
  else if product = Product.sub_hourly then
    Except.ok (if forecast_hour = 0 then ForecastHourSet.FH00 else ForecastHourSet.FH01_18)
  else
    Except.ok (if forecast_hour < 2 then ForecastHourSet.FH00_01 else ForecastHourSet.FH02_48)

/-- Embeds `constants.py` `@dataclass class ForecastCycleType`; the `type`
field is the string `"standard"` or `"extended"` (the Python `__post_init__`
rejects any other string, so all uses below instantiate only these two). -/
structure ForecastCycleType where
  type : String
deriving DecidableEq

/-- Embeds the `max_forecast_hour` attribute computed in
`ForecastCycleType.__post_init__`: 18 for `"standard"`, 48 for `"extended"`. -/
def ForecastCycleType.max_forecast_hour (t : ForecastCycleType) : Int :=
  if t.type = "standard" then STANDARD_FORECAST_MAX_HOUR else EXTENDED_FORECAST_MAX_HOUR

/-- Embeds `ForecastCycleType.__str__`, which returns `self.type`. -/
def ForecastCycleType.str (t : ForecastCycleType) : String := t.type

/-- Embeds `ForecastCycleType.from_timestamp_and_region` (`constants.py`):
`extended = reference_datetime.hour % 6 == 0`.  Only the hour of the
timestamp is consulted, so the timestamp is modelled by its hour (0-23); the
`region` argument is accepted and ignored exactly as in the source. -/
def ForecastCycleType.from_timestamp_and_region
    (reference_hour : Nat) (_region : Region) : ForecastCycleType :=
  if reference_hour % 6 = 0 then ⟨"extended"⟩ else ⟨"standard"⟩

/-- Embeds `ForecastCycleType.generate_forecast_hours`:
`list(range(1, self.max_forecast_hour + 1))`. -/
def ForecastCycleType.generate_forecast_hours (t : ForecastCycleType) : List Int :=
  (List.range t.max_forecast_hour.toNat).map (fun i => (i : Int) + 1)

/-- Embeds `ForecastCycleType.validate_forecast_hour`:
`valid = 0 <= forecast_hour <= self.max_forecast_hour`; on failure raises
`ValueError` whose message interpolates the forecast hour and `str(self)`. -/
def ForecastCycleType.validate_forecast_hour
    (t : ForecastCycleType) (forecast_hour : Int) : Except String Unit :=
  if 0 ≤ forecast_hour ∧ forecast_hour ≤ t.max_forecast_hour then
    Except.ok ()
  else
    Except.error ("The provided forecast_hour (" ++ toString forecast_hour ++
      ") is not compatible with the forecast cycle type (" ++ t.str ++ ")")

/-- Embeds `constants.py` `@dataclass class RegionConfig`, keeping the fields
the claims consult (`herbie_model_id`, `cycle_run_hours`); the projected
bounding box and CRS fields are floating-point geometry not used by any claim
and are omitted. -/
structure RegionConfig where
  herbie_model_id : String
  cycle_run_hours : List Nat

/-- Embeds `constants.py` `REGION_CONFIGS`: conus runs every hour
(`range(0, 24)`), alaska every third hour (`range(0, 24, 3)`). -/
def REGION_CONFIGS : Region → RegionConfig
  | .conus => ⟨"hrrr", List.range 24⟩
  | .alaska => ⟨"hrrrak", [0, 3, 6, 9, 12, 15, 18, 21]⟩

/-- Decidable equality for `Except`, used to evaluate claims on concrete runs. -/
instance {ε α : Type} [DecidableEq ε] [DecidableEq α] : DecidableEq (Except ε α)
  | Except.error e, Except.error f => decidable_of_iff (e = f) (by simp)
  | Except.error _, Except.ok _ => isFalse (by simp)
  | Except.ok _, Except.error _ => isFalse (by simp)
  | Except.ok a, Except.ok b => decidable_of_iff (a = b) (by simp)

/-- Whether an `Except` value is a success. -/
def isOkB {ε α : Type} : Except ε α → Bool
  | Except.ok _ => true
  | Except.error _ => false

/-!
The forecast-valid formatter (`constants.py` `Variable.format_forecast_valid_string`)
dispatches on the pattern with two `re.search` calls:

  1. `re.search(r"(\d+) (.*) fcst", pattern)`   (instantaneous)
  2. `re.search(r"(\d+)-(\d)+ (.*) (.*)", pattern)`   (windowed)

`re.search` finds the leftmost position at which the whole regex can match a
substring; the functions below implement exactly that search for these two
regexes (assuming single-line patterns).  For the instantaneous regex only
match existence matters: the returned string depends solely on the target
forecast hour (the source computes a minute-level `forecast_time` and then
discards it).  For the windowed regex the groups matter: group 1 is the
maximal digit run at the match start, the literal `-`, one-or-more digits,
a space, then `(.*) (.*)` splits the remainder of the line at its last space.
-/

/-- Whether `needle` is a prefix of `hay` (over character lists). -/
def startsWithList : List Char → List Char → Bool
  | [], _ => true
  | _ :: _, [] => false
  | a :: as, b :: bs => (a == b) && startsWithList as bs

/-- Whether `needle` occurs as a contiguous substring of `hay`. -/
def containsSub (needle : List Char) : List Char → Bool
  | [] => needle.isEmpty
  | c :: rest => startsWithList needle (c :: rest) || containsSub needle rest

/-- Whether `" fcst"` occurs anywhere in the character list. -/
def containsSfcst (l : List Char) : Bool := containsSub [' ', 'f', 'c', 's', 't'] l

/-- Existence of a match of `(\d+) (.*) fcst` anywhere in the list: some digit
immediately followed by a space, with `" fcst"` occurring strictly later. -/
def hasInstantMatch : List Char → Bool
  | c1 :: c2 :: rest =>
      (c1.isDigit && (c2 == ' ') && containsSfcst rest) || hasInstantMatch (c2 :: rest)
  | _ => false

/-- Split a character list at its last space: `(.*) (.*)` with both groups
greedy matches the rest of the line by taking everything up to the final
space as group 3 and the remainder as group 4; `none` when no space occurs. -/
def splitAtLastSpace : List Char → Option (List Char × List Char)
  | [] => none
  | c :: rest =>
      match splitAtLastSpace rest with
      | some (a, b) => some (c :: a, b)
      | none => if c = ' ' then some ([], rest) else none

/-- Attempt to match `(\d+)-(\d)+ (.*) (.*)` anchored at the start of the
list, returning `(group 1, group 3, group 4)`: a nonempty maximal digit run,
a literal `-`, another nonempty maximal digit run, a space, and a remainder
containing at least one further space at which it is split. -/
def tryWindowedAt (cs : List Char) : Option (List Char × List Char × List Char) :=
  if (cs.takeWhile Char.isDigit).isEmpty then none
  else
    match cs.dropWhile Char.isDigit with
    | '-' :: rest1 =>
        if (rest1.takeWhile Char.isDigit).isEmpty then none
        else
          match rest1.dropWhile Char.isDigit with
          | ' ' :: rest3 =>
              (splitAtLastSpace rest3).map (fun ab => (cs.takeWhile Char.isDigit, ab.1, ab.2))
          | _ => none
    | _ => none

/-- Leftmost search for `(\d+)-(\d)+ (.*) (.*)`: try each start position from
the left, as `re.search` does. -/
def searchWindowed : List Char → Option (List Char × List Char × List Char)
  | [] => none
  | c :: rest =>
      match tryWindowedAt (c :: rest) with
      | some r => some r
      | none => searchWindowed rest

/-- Embeds `constants.py` `@dataclass class Variable` (one reference-inventory
row). -/
structure Variable where
  row_number : Int
  level_layer : String
  parameter : String
  forecast_valid_pattern : String
  description : String

/-- Embeds the body of `Variable.format_forecast_valid_string` (`constants.py`):
the literal `"analysis"` is returned unchanged; a pattern containing an
instantaneous match renders as `"<forecast_hour> hour fcst"` (the matched
groups are unused by the source: its minute-level computation is discarded);
a pattern containing a windowed match renders from group 1 (`start_time`),
group 3 (`time_unit`) and group 4 (`stat`): when group 1 is the string `"1"`
the window is `forecast_hour - 1` to `forecast_hour`, otherwise the start is
`0` and, when the forecast hour is divisible by 24, the end becomes
`forecast_hour / 24` with unit `"day"`; any other pattern raises `ValueError`.
Python `int(forecast_hour / 24)` is exact integer division here because it is
only reached when `forecast_hour % 24 == 0`. -/
def formatPatternChars (pattern : List Char) (forecast_hour : Int) : Except String String :=
  if pattern = "analysis".data then
    Except.ok "analysis"
  else if hasInstantMatch pattern then
    Except.ok (toString forecast_hour ++ " hour fcst")
  else
    match searchWindowed pattern with
    | some (start_time, time_unit, stat) =>
        if start_time = ['1'] then
          Except.ok (toString (forecast_hour - 1) ++ "-" ++ toString forecast_hour ++
            " " ++ String.mk time_unit ++ " " ++ String.mk stat)
        else if forecast_hour % 24 = 0 then
          Except.ok ("0-" ++ toString (forecast_hour / 24) ++ " day " ++ String.mk stat)
        else
          Except.ok ("0-" ++ toString forecast_hour ++ " " ++ String.mk time_unit ++
            " " ++ String.mk stat)
    | none =>
        Except.error (String.mk pattern ++
          " could not be parsed into a forecast_valid string")

/-- Wrapper applying the formatter to a `Variable` row, as the source method
does (string equality agrees with character-list equality). -/
def Variable.format_forecast_valid_string
    (v : Variable) (forecast_hour : Int) : Except String String :=
  formatPatternChars v.forecast_valid_pattern.data forecast_hour

/-- Embeds the cycle-run-hour check at the top of `stac.py` `create_item`
(lines 312-321).  The source reads

  `if cycle_run_hour := reference_datetime.hour not in region_config.cycle_run_hours:`

so the walrus operator binds `cycle_run_hour` to the *boolean* of the
membership test (Python precedence), and inside the raising branch that
boolean is `True`; the message therefore begins `"True is not a valid cycle
run hour ..."` and then enumerates the region's valid hours joined by
`" ,"`. -/
def create_item_run_hour_check (region : Region) (reference_hour : Nat) :
    Except String Unit :=
  let region_config := REGION_CONFIGS region
  if reference_hour ∈ region_config.cycle_run_hours then
    Except.ok ()
  else
    Except.error ("True is not a valid cycle run hour for " ++ region.value ++ "\n" ++
      "Please select one of " ++
      String.intercalate " ," (region_config.cycle_run_hours.map (fun h => toString h)))

/-- Task failure taxonomy for bulk generation: the spec distinguishes a
not-found error from every other error. -/
inductive TaskError where
  | notFound
  | other (msg : String)
deriving DecidableEq

/-- Embeds the fan-out step of `inventory.py` `generate_inventory_csv_gzs`
(lines 118-119): `pool.starmap(generate_single_inventory_df, tasks)`.
Each task outcome is modelled by an `Except`.  Neither
`generate_inventory_csv_gzs` nor `generate_single_inventory_df` contains any
`try`/`except`, so an exception raised by any task is re-raised out of
`starmap` and aborts the batch; only a batch whose tasks all succeed yields
the list of results.  The model propagates the earliest failing task in task
order. -/
def starmapCollect {α : Type} : List (Except TaskError α) → Except TaskError (List α)
  | [] => Except.ok []
  | Except.error e :: _ => Except.error e
  | Except.ok a :: rest => (starmapCollect rest).map (fun l => a :: l)

/-- Modelled from the spec: the Index Parser of spec section 4.2 is not in
`src/` (index retrieval and parsing happen inside the external `herbie`
dependency used by `stac.py` and `inventory.py`).  Per the spec's words, the
byte length of record `i` is `start_offset(i+1) - start_offset(i)` and the
final record's length is left null.  The records' start offsets are given in
row order. -/
def deriveByteLengths : List Int → List (Option Int)
  | [] => []
  | [_] => [none]
  | a :: b :: rest => some (b - a) :: deriveByteLengths (b :: rest)

/-- Split a character list on a separator character (every occurrence,
keeping empty segments), used only by the claim-side form predicates below. -/
def splitOnChar (sep : Char) : List Char → List (List Char)
  | [] => [[]]
  | c :: rest =>
      if c = sep then [] :: splitOnChar sep rest
      else
        match splitOnChar sep rest with
        | t :: ts => (c :: t) :: ts
        | [] => [[c]]

/-- Follows the claim's words, not the source: whether a string is, in full,
of the instantaneous form `"<N> <unit> fcst"` with `N` a nonempty digit
token and `unit` a nonempty token. -/
def specInstantForm (s : String) : Bool :=
  match splitOnChar ' ' s.data with
  | [n, u, f] => !n.isEmpty && n.all Char.isDigit && !u.isEmpty && f == ['f', 'c', 's', 't']
  | _ => false

/-- Follows the claim's words, not the source: whether a string is, in full,
of the windowed form `"<N1>-<N2> <unit> <stat>"` with `N1`, `N2` nonempty
digit tokens and `unit`, `stat` nonempty tokens. -/
def specWindowedForm (s : String) : Bool :=
  match splitOnChar ' ' s.data with
  | [r, u, st] =>
      (match splitOnChar '-' r with
       | [n1, n2] => !n1.isEmpty && n1.all Char.isDigit && !n2.isEmpty && n2.all Char.isDigit
       | _ => false) && !u.isEmpty && !st.isEmpty
  | _ => false

/-- The shape of a string some substring of which matches the instantaneous
regex `(\d+) (.*) fcst`: a digit immediately followed by a space, with
`" fcst"` occurring strictly later (the middle may itself contain spaces,
matching `.*`). -/
def instantFormPresent (l : List Char) : Prop :=
  ∃ p c m q, c.isDigit = true ∧
    l = p ++ c :: ' ' :: (m ++ ' ' :: 'f' :: 'c' :: 's' :: 't' :: q)

/-- The shape of a string some substring of which matches the windowed regex
`(\d+)-(\d)+ (.*) (.*)`: a nonempty digit run, `-`, a nonempty digit run, a
space, and at least one further space in the remainder of the line. -/
def windowedFormPresent (l : List Char) : Prop :=
  ∃ p ds ds2 a b, ds ≠ [] ∧ ds.all Char.isDigit = true ∧
    ds2 ≠ [] ∧ ds2.all Char.isDigit = true ∧
    l = p ++ (ds ++ '-' :: (ds2 ++ ' ' :: (a ++ ' ' :: b)))

/-!
Supporting lemmas for the regex-search model: each search function is
characterised by an explicit decomposition of its input.
-/

theorem startsWithList_iff : ∀ (n h : List Char),
    startsWithList n h = true ↔ ∃ t, h = n ++ t
  | [], h => ⟨fun _ => ⟨h, rfl⟩, fun _ => rfl⟩
  | a :: as, [] =>
      ⟨fun hf => absurd hf (by simp [startsWithList]),
       fun ⟨_, ht⟩ => List.noConfusion ht⟩
  | a :: as, b :: bs => by
      simp only [startsWithList, Bool.and_eq_true, beq_iff_eq]
      constructor
      · rintro ⟨hab, hsw⟩
        obtain ⟨t, ht⟩ := (startsWithList_iff as bs).mp hsw
        exact ⟨t, by rw [← hab, ht]; rfl⟩
      · rintro ⟨t, ht⟩
        injection ht with hb hbs
        exact ⟨hb.symm, (startsWithList_iff as bs).mpr ⟨t, hbs⟩⟩

theorem containsSub_iff : ∀ (n h : List Char),
    containsSub n h = true ↔ ∃ p t, h = p ++ n ++ t
  | n, [] => by
      simp only [containsSub]
      constructor
      · intro he
        have hn : n = [] := by
          cases n with
          | nil => rfl
          | cons a as => simp [List.isEmpty] at he
        exact ⟨[], [], by simp [hn]⟩
      · rintro ⟨p, t, ht⟩
        have h1 := List.append_eq_nil.mp ht.symm
        have h2 := List.append_eq_nil.mp h1.1
        simp [h2.2]
  | n, c :: rest => by
      simp only [containsSub, Bool.or_eq_true]
      constructor
      · rintro (hs | hc)
        · obtain ⟨t, ht⟩ := (startsWithList_iff n (c :: rest)).mp hs
          exact ⟨[], t, by simpa using ht⟩
        · obtain ⟨p, t, ht⟩ := (containsSub_iff n rest).mp hc
          exact ⟨c :: p, t, by simp [ht]⟩
      · rintro ⟨p, t, ht⟩
        cases p with
        | nil =>
            exact Or.inl ((startsWithList_iff n (c :: rest)).mpr ⟨t, by simpa using ht⟩)
        | cons a p2 =>
            have ht2 : c :: rest = a :: (p2 ++ n ++ t) := by simpa using ht
            injection ht2 with hc2 hr2
            exact Or.inr ((containsSub_iff n rest).mpr ⟨p2, t, hr2⟩)

/-- A true instant match stays true after consing any character. -/
theorem hasInstantMatch_cons (c : Char) (l : List Char)
    (h : hasInstantMatch l = true) : hasInstantMatch (c :: l) = true := by
  cases l with
  | nil => simp [hasInstantMatch] at h
  | cons c2 rest => simp [hasInstantMatch, h]

/-- Completeness of the instant-match search: a true result decomposes the
input into the matched shape. -/
theorem hasInstantMatch_imp_present : ∀ (l : List Char),
    hasInstantMatch l = true → instantFormPresent l
  | [] => by intro h; simp [hasInstantMatch] at h
  | [c0] => by intro h; simp [hasInstantMatch] at h
  | c1 :: c2 :: rest => by
      intro h
      have hor : (c1.isDigit && (c2 == ' ') && containsSfcst rest) = true ∨
          hasInstantMatch (c2 :: rest) = true := by
        simpa [hasInstantMatch] using h
      rcases hor with hA | hB
      · obtain ⟨⟨hd, hsp⟩, hcf⟩ := by
          simpa [Bool.and_eq_true] using hA
        have hc2 : c2 = ' ' := by simpa [beq_iff_eq] using hsp
        obtain ⟨m, t, hmt⟩ :=
          (containsSub_iff [' ', 'f', 'c', 's', 't'] rest).mp hcf
        refine ⟨[], c1, m, t, hd, ?_⟩
        subst hc2
        simp [hmt]
      · obtain ⟨p, c, m, q, hd, he⟩ := hasInstantMatch_imp_present (c2 :: rest) hB
        exact ⟨c1 :: p, c, m, q, hd, by simp [he]⟩

/-- Soundness of the instant-match search: any input of the matched shape
tests true. -/
theorem present_imp_hasInstantMatch : ∀ (p : List Char) (c : Char) (m q : List Char),
    c.isDigit = true →
    hasInstantMatch (p ++ c :: ' ' :: (m ++ ' ' :: 'f' :: 'c' :: 's' :: 't' :: q)) = true
  | [], c, m, q => by
      intro hd
      have hcf : containsSfcst (m ++ ' ' :: 'f' :: 'c' :: 's' :: 't' :: q) = true := by
        refine (containsSub_iff [' ', 'f', 'c', 's', 't'] _).mpr ⟨m, q, ?_⟩
        simp
      simp [hasInstantMatch, hd, hcf]
  | a :: p2, c, m, q => by
      intro hd
      exact hasInstantMatch_cons a _ (present_imp_hasInstantMatch p2 c m q hd)

/-- Every element kept by `takeWhile` satisfies the predicate. -/
theorem takeWhile_all (p : Char → Bool) : ∀ (l : List Char),
    (l.takeWhile p).all p = true
  | [] => rfl
  | c :: rest => by
      by_cases hp : p c
      · simp [List.takeWhile_cons, hp, takeWhile_all p rest]
      · simp [List.takeWhile_cons, hp]

/-- On a list whose prefix all satisfies `p` and whose next element does
not, `takeWhile`/`dropWhile` split exactly at that boundary. -/
theorem takeWhile_append_boundary (p : Char → Bool) :
    ∀ (l : List Char) (c : Char) (rest : List Char),
    l.all p = true → p c = false →
    (l ++ c :: rest).takeWhile p = l ∧ (l ++ c :: rest).dropWhile p = c :: rest
  | [], c, rest => by
      intro _ hc
      simp [List.takeWhile_cons, List.dropWhile_cons, hc]
  | a :: l2, c, rest => by
      intro hl hc
      have hpair : p a = true ∧ l2.all p = true := by simpa using hl
      have ha := hpair.1
      have hl2 := hpair.2
      have ih := takeWhile_append_boundary p l2 c rest hl2 hc
      simp [List.takeWhile_cons, List.dropWhile_cons, ha, ih.1, ih.2]

/-- Without a space, `splitAtLastSpace` finds nothing. -/
theorem splitAtLastSpace_none : ∀ (l : List Char), ' ' ∉ l →
    splitAtLastSpace l = none
  | [] => fun _ => rfl
  | c :: rest => by
      intro h
      have hc : ¬ c = ' ' := fun he => h (he ▸ List.mem_cons_self c rest)
      have hr := splitAtLastSpace_none rest (fun hm => h (List.mem_cons_of_mem c hm))
      simp [splitAtLastSpace, hr, hc]

/-- With a space, `splitAtLastSpace` finds one. -/
theorem splitAtLastSpace_isSome : ∀ (l : List Char), ' ' ∈ l →
    (splitAtLastSpace l).isSome = true
  | [] => by intro h; simp at h
  | c :: rest => by
      intro h
      rcases hr : splitAtLastSpace rest with _ | pr
      · have hnr : ' ' ∉ rest := fun hm => by
          have := splitAtLastSpace_isSome rest hm
          rw [hr] at this
          exact Bool.noConfusion this
        have hc : c = ' ' := by
          rcases List.mem_cons.mp h with hh | hh
          · exact hh.symm
          · exact absurd hh hnr
        simp [splitAtLastSpace, hr, hc]
      · simp [splitAtLastSpace, hr]

/-- `splitAtLastSpace` splits on tokens without internal spaces. -/
theorem splitAtLastSpace_structured : ∀ (u st : List Char), ' ' ∉ u → ' ' ∉ st →
    splitAtLastSpace (u ++ ' ' :: st) = some (u, st)
  | [], st => by
      intro _ hst
      simp [splitAtLastSpace, splitAtLastSpace_none st hst]
  | c :: u2, st => by
      intro hu hst
      have hih := splitAtLastSpace_structured u2 st
        (fun hm => hu (List.mem_cons_of_mem c hm)) hst
      simp [splitAtLastSpace, hih]

/-- A successful `splitAtLastSpace` decomposes its input at a space. -/
theorem splitAtLastSpace_eq : ∀ (l a b : List Char),
    splitAtLastSpace l = some (a, b) → l = a ++ ' ' :: b
  | [], a, b => by intro h; exact Option.noConfusion h
  | c :: rest, a, b => by
      intro h
      rcases hr : splitAtLastSpace rest with _ | ⟨a2, b2⟩
      · rw [splitAtLastSpace, hr] at h
        by_cases hc : c = ' '
        · rw [if_pos hc] at h
          injection h with h2
          injection h2 with ha hb
          subst ha; subst hb; subst hc
          rfl
        · rw [if_neg hc] at h
          exact Option.noConfusion h
      · rw [splitAtLastSpace, hr] at h
        injection h with h2
        injection h2 with ha hb
        subst ha; subst hb
        have := splitAtLastSpace_eq rest a2 b2 hr
        rw [this]
        rfl

/-- Soundness of the anchored windowed matcher on a fully structured input:
the groups are the two tokens around the last space. -/
theorem tryWindowedAt_structured (ds1 ds2 u st : List Char)
    (h1 : ds1 ≠ []) (h1d : ds1.all Char.isDigit = true)
    (h2 : ds2 ≠ []) (h2d : ds2.all Char.isDigit = true)
    (hu : ' ' ∉ u) (hst : ' ' ∉ st) :
    tryWindowedAt (ds1 ++ '-' :: (ds2 ++ ' ' :: (u ++ ' ' :: st))) = some (ds1, u, st) := by
  have hb1 := takeWhile_append_boundary Char.isDigit ds1 '-'
    (ds2 ++ ' ' :: (u ++ ' ' :: st)) h1d (by decide)
  have hb2 := takeWhile_append_boundary Char.isDigit ds2 ' ' (u ++ ' ' :: st) h2d (by decide)
  obtain ⟨d1, dt1, rfl⟩ := List.exists_cons_of_ne_nil h1
  obtain ⟨d2, dt2, rfl⟩ := List.exists_cons_of_ne_nil h2
  rw [tryWindowedAt]
  rw [hb1.1, hb1.2]
  simp only [List.isEmpty_cons, ite_false, Bool.false_eq_true, if_false]
  rw [hb2.1, hb2.2]
  simp only [List.isEmpty_cons, ite_false, Bool.false_eq_true, if_false]
  rw [splitAtLastSpace_structured u st hu hst]
  rfl

/-- The anchored windowed matcher succeeds whenever the input has the
structured shape, even when the trailing segments contain further spaces. -/
theorem tryWindowedAt_isSome (ds1 ds2 rest3 : List Char)
    (h1 : ds1 ≠ []) (h1d : ds1.all Char.isDigit = true)
    (h2 : ds2 ≠ []) (h2d : ds2.all Char.isDigit = true)
    (hsp : ' ' ∈ rest3) :
    (tryWindowedAt (ds1 ++ '-' :: (ds2 ++ ' ' :: rest3))).isSome = true := by
  have hb1 := takeWhile_append_boundary Char.isDigit ds1 '-' (ds2 ++ ' ' :: rest3) h1d
    (by decide)
  have hb2 := takeWhile_append_boundary Char.isDigit ds2 ' ' rest3 h2d (by decide)
  obtain ⟨d1, dt1, rfl⟩ := List.exists_cons_of_ne_nil h1
  obtain ⟨d2, dt2, rfl⟩ := List.exists_cons_of_ne_nil h2
  rw [tryWindowedAt]
  rw [hb1.1, hb1.2]
  simp only [List.isEmpty_cons, ite_false, Bool.false_eq_true, if_false]
  rw [hb2.1, hb2.2]
  simp only [List.isEmpty_cons, ite_false, Bool.false_eq_true, if_false]
  rcases hs : splitAtLastSpace rest3 with _ | pr
  · have := splitAtLastSpace_isSome rest3 hsp
    rw [hs] at this
    exact Bool.noConfusion this
  · simp

/-- Completeness of the anchored windowed matcher: a successful match
decomposes its input into the matched shape. -/
theorem tryWindowedAt_some (cs ds u st : List Char)
    (h : tryWindowedAt cs = some (ds, u, st)) :
    ∃ ds2 : List Char, cs = ds ++ '-' :: (ds2 ++ ' ' :: (u ++ ' ' :: st)) ∧
      ds ≠ [] ∧ ds.all Char.isDigit = true ∧ ds2 ≠ [] ∧ ds2.all Char.isDigit = true := by
  rw [tryWindowedAt] at h
  split at h
  · exact Option.noConfusion h
  · rename_i hne1
    split at h
    · rename_i rest1 hdrop1
      split at h
      · exact Option.noConfusion h
      · rename_i hne2
        split at h
        · rename_i rest3 hdrop3
          rcases hs : splitAtLastSpace rest3 with _ | ⟨a, b⟩
          · rw [hs] at h
            exact Option.noConfusion h
          · rw [hs] at h
            have h2 : cs.takeWhile Char.isDigit = ds ∧ a = u ∧ b = st := by
              simpa using h
            obtain ⟨hds, hu2, hst2⟩ := h2
            have hr3 : rest3 = a ++ ' ' :: b := splitAtLastSpace_eq rest3 a b hs
            have e1 : rest1 = rest1.takeWhile Char.isDigit ++ ' ' :: (u ++ ' ' :: st) := by
              conv_lhs => rw [← List.takeWhile_append_dropWhile (p := Char.isDigit)
                (l := rest1)]
              rw [hdrop3, hr3, hu2, hst2]
            refine ⟨rest1.takeWhile Char.isDigit, ?_, ?_, ?_, ?_, ?_⟩
            · conv_lhs => rw [← List.takeWhile_append_dropWhile (p := Char.isDigit)
                (l := cs)]
              rw [hdrop1, hds]
              conv_lhs => rw [e1]
            · intro hnil
              rw [← hds] at hnil
              rw [hnil] at hne1
              exact hne1 rfl
            · rw [← hds]; exact takeWhile_all Char.isDigit cs
            · intro hnil
              rw [hnil] at hne2
              exact hne2 rfl
            · exact takeWhile_all Char.isDigit rest1
        · exact Option.noConfusion h
    · exact Option.noConfusion h

/-- Completeness of the windowed search: a successful search decomposes its
input into a prefix followed by the matched shape. -/
theorem searchWindowed_some_present : ∀ (l : List Char)
    (r : List Char × List Char × List Char),
    searchWindowed l = some r → windowedFormPresent l
  | [], r => by intro h; exact Option.noConfusion h
  | c :: rest, r => by
      intro h
      rw [searchWindowed] at h
      rcases ht : tryWindowedAt (c :: rest) with _ | ⟨ds, u, st⟩
      · rw [ht] at h
        obtain ⟨p, ds, ds2, a, b, hp1, hp2, hp3, hp4, hp5⟩ :=
          searchWindowed_some_present rest r h
        exact ⟨c :: p, ds, ds2, a, b, hp1, hp2, hp3, hp4, by simp [hp5]⟩
      · obtain ⟨ds2, hcs, hn1, hd1, hn2, hd2⟩ := tryWindowedAt_some _ _ _ _ ht
        exact ⟨[], ds, ds2, u, st, hn1, hd1, hn2, hd2, by simpa using hcs⟩

/-- Soundness of the windowed search: it succeeds on any input containing
the matched shape. -/
theorem searchWindowed_isSome_of_present (l : List Char)
    (h : windowedFormPresent l) : (searchWindowed l).isSome = true := by
  obtain ⟨p, ds, ds2, a, b, hn1, hd1, hn2, hd2, hl⟩ := h
  subst hl
  induction p with
  | nil =>
      have hsome := tryWindowedAt_isSome ds ds2 (a ++ ' ' :: b) hn1 hd1 hn2 hd2
        (List.mem_append_right a (List.mem_cons_self ..))
      obtain ⟨d1, dt1, rfl⟩ := List.exists_cons_of_ne_nil hn1
      simp only [List.cons_append, List.nil_append] at hsome ⊢
      rw [searchWindowed]
      rcases ht : tryWindowedAt (d1 :: (dt1 ++ '-' :: (ds2 ++ ' ' :: (a ++ ' ' :: b)))) with
        _ | r
      · rw [ht] at hsome
        exact Bool.noConfusion hsome
      · simp
  | cons c p2 ih =>
      simp only [List.cons_append] at ih ⊢
      rw [searchWindowed]
      rcases ht : tryWindowedAt (c :: (p2 ++ (ds ++ '-' :: (ds2 ++ ' ' :: (a ++ ' ' :: b)))))
        with _ | r
      · exact ih
      · simp

/-!
Claim theorems for the forecast calendar (C2, C3, C4, C10) and the region
cycle-run-hour check (C7).
-/

/-- Claim C2: for every reference hour 0-23 (and either region, which the
source ignores), the derived forecast cycle type is `"extended"` iff the hour
is divisible by 6 and `"standard"` otherwise, and exactly 4 of the 24
possible reference hours yield an extended cycle. -/
theorem c2_cycle_type_from_hour :
    (∀ h : Fin 24, ∀ r : Region,
      ((ForecastCycleType.from_timestamp_and_region h.val r).type = "extended" ↔
        h.val % 6 = 0) ∧
      ((ForecastCycleType.from_timestamp_and_region h.val r).type = "standard" ↔
        ¬ h.val % 6 = 0)) ∧
    (Finset.univ.filter
      (fun h : Fin 24 =>
        (ForecastCycleType.from_timestamp_and_region h.val Region.conus).type =
          "extended")).card = 4 := by
  decide

/-- Claim C3 (counterexample): `validate_forecast_hour` on a standard cycle at
forecast hour 19 raises, but its message does not state the valid range
0-18: neither `"18"` nor `"0-18"` occurs in the message, which instead names
the offending hour and the cycle type. -/
theorem c3_counterexample :
    ForecastCycleType.validate_forecast_hour ⟨"standard"⟩ 19 =
      Except.error
        "The provided forecast_hour (19) is not compatible with the forecast cycle type (standard)" ∧
    containsSub "18".data
      "The provided forecast_hour (19) is not compatible with the forecast cycle type (standard)".data
        = false ∧
    containsSub "0-18".data
      "The provided forecast_hour (19) is not compatible with the forecast cycle type (standard)".data
        = false := by
  decide

/-- Claim C3 (amended): `validate_forecast_hour` succeeds iff
`0 ≤ fh ≤ 18` for a standard cycle and `0 ≤ fh ≤ 48` for an extended cycle;
on failure it raises an error whose message states the offending forecast
hour and the cycle type name (not the numeric valid range). -/
theorem c3_validate_forecast_hour (fh : Int) :
    (ForecastCycleType.validate_forecast_hour ⟨"standard"⟩ fh = Except.ok () ↔
      0 ≤ fh ∧ fh ≤ 18) ∧
    (ForecastCycleType.validate_forecast_hour ⟨"extended"⟩ fh = Except.ok () ↔
      0 ≤ fh ∧ fh ≤ 48) ∧
    (¬ (0 ≤ fh ∧ fh ≤ 18) →
      ForecastCycleType.validate_forecast_hour ⟨"standard"⟩ fh =
        Except.error ("The provided forecast_hour (" ++ toString fh ++
          ") is not compatible with the forecast cycle type (" ++ "standard" ++ ")")) ∧
    (¬ (0 ≤ fh ∧ fh ≤ 48) →
      ForecastCycleType.validate_forecast_hour ⟨"extended"⟩ fh =
        Except.error ("The provided forecast_hour (" ++ toString fh ++
          ") is not compatible with the forecast cycle type (" ++ "extended" ++ ")")) := by
  have hstd : ∀ g : Int, ForecastCycleType.validate_forecast_hour ⟨"standard"⟩ g =
      if 0 ≤ g ∧ g ≤ 18 then Except.ok ()
      else Except.error ("The provided forecast_hour (" ++ toString g ++
        ") is not compatible with the forecast cycle type (" ++ "standard" ++ ")") :=
    fun g => by rfl
  have hext : ∀ g : Int, ForecastCycleType.validate_forecast_hour ⟨"extended"⟩ g =
      if 0 ≤ g ∧ g ≤ 48 then Except.ok ()
      else Except.error ("The provided forecast_hour (" ++ toString g ++
        ") is not compatible with the forecast cycle type (" ++ "extended" ++ ")") :=
    fun g => by rfl
  refine ⟨?_, ?_, fun h => ?_, fun h => ?_⟩
  · rw [hstd]
    split_ifs with hcond
    · simp [hcond]
    · simp [hcond]
  · rw [hext]
    split_ifs with hcond
    · simp [hcond]
    · simp [hcond]
  · rw [hstd, if_neg h]
  · rw [hext, if_neg h]

/-- Claim C3 witness: the amended theorem applied at forecast hour 19 on a
standard cycle. -/
theorem c3_validate_forecast_hour_witness :
    ¬ ((0:Int) ≤ 19 ∧ (19:Int) ≤ 18) ∧
    ForecastCycleType.validate_forecast_hour ⟨"standard"⟩ 19 =
      Except.error
        "The provided forecast_hour (19) is not compatible with the forecast cycle type (standard)" :=
  ⟨by decide, ((c3_validate_forecast_hour 19).2.2.1 (by decide)).trans (by decide)⟩

/-- Claim C4: within the valid range 0-48, the forecast-hour-set bucket is:
for the sub-hourly product, hour 0 gives `FH00` and any hour at least 1 gives
`FH01_18`; for every other product, hours 0-1 give `FH00_01` and hours 2-48
give `FH02_48`. -/
theorem c4_forecast_hour_set_bucket (fh : Int) (p : Product)
    (h0 : 0 ≤ fh) (h48 : fh ≤ 48) :
    (p = Product.sub_hourly →
      (fh = 0 → ForecastHourSet.from_forecast_hour_and_product fh p =
        Except.ok ForecastHourSet.FH00) ∧
      (1 ≤ fh → ForecastHourSet.from_forecast_hour_and_product fh p =
        Except.ok ForecastHourSet.FH01_18)) ∧
    (p ≠ Product.sub_hourly →
      (fh ≤ 1 → ForecastHourSet.from_forecast_hour_and_product fh p =
        Except.ok ForecastHourSet.FH00_01) ∧
      (2 ≤ fh → ForecastHourSet.from_forecast_hour_and_product fh p =
        Except.ok ForecastHourSet.FH02_48)) := by
  have key : ForecastHourSet.from_forecast_hour_and_product fh p =
      if p = Product.sub_hourly then
        Except.ok (if fh = 0 then ForecastHourSet.FH00 else ForecastHourSet.FH01_18)
      else
        Except.ok (if fh < 2 then ForecastHourSet.FH00_01 else ForecastHourSet.FH02_48) := by
    unfold ForecastHourSet.from_forecast_hour_and_product
    rw [if_neg (show ¬¬(0 ≤ fh ∧ fh ≤ 48) from by omega)]
  refine ⟨fun hp => ⟨fun hz => ?_, fun h1 => ?_⟩, fun hp => ⟨fun hle => ?_, fun h2 => ?_⟩⟩ <;>
    rw [key]
  · simp [hp, hz]
  · simp [hp, show fh ≠ 0 from by omega]
  · simp [hp, show fh < 2 from by omega]
  · simp [hp, show ¬ fh < 2 from by omega]

/-- Claim C4 witness: the theorem applied at forecast hour 2 on the surface
product. -/
theorem c4_forecast_hour_set_bucket_witness :
    (0:Int) ≤ 2 ∧ (2:Int) ≤ 48 ∧
    ForecastHourSet.from_forecast_hour_and_product 2 Product.surface =
      Except.ok ForecastHourSet.FH02_48 :=
  ⟨by decide, by decide,
    ((c4_forecast_hour_set_bucket 2 Product.surface (by decide) (by decide)).2
      (by decide)).2 (by decide)⟩

/-- Claim C7: the `create_item` cycle-run-hour check passes exactly when the
reference hour is among the region's published run hours (every hour 0-23 for
conus, every third hour for alaska); when it fails, the raised message
enumerates the region's valid run hours (each valid hour's decimal string
occurs in the message); requesting hour 2 for alaska fails and hour 3
succeeds. -/
theorem c7_cycle_run_hour_check :
    (∀ r : Region, ∀ h : Fin 24,
      (create_item_run_hour_check r h.val = Except.ok ()) ↔
        h.val ∈ (REGION_CONFIGS r).cycle_run_hours) ∧
    (REGION_CONFIGS Region.conus).cycle_run_hours =
      [0, 1, 2, 3, 4, 5, 6, 7, 8, 9, 10, 11, 12, 13, 14, 15, 16, 17, 18, 19, 20, 21, 22, 23] ∧
    (REGION_CONFIGS Region.alaska).cycle_run_hours = [0, 3, 6, 9, 12, 15, 18, 21] ∧
    (∀ h : Fin 24, create_item_run_hour_check Region.conus h.val = Except.ok ()) ∧
    (∀ h : Fin 24, create_item_run_hour_check Region.alaska h.val =
      (if h.val ∈ [0, 3, 6, 9, 12, 15, 18, 21] then Except.ok ()
       else Except.error
        "True is not a valid cycle run hour for alaska\nPlease select one of 0 ,3 ,6 ,9 ,12 ,15 ,18 ,21")) ∧
    ((REGION_CONFIGS Region.alaska).cycle_run_hours.all
      (fun v => containsSub (toString v).data
        "True is not a valid cycle run hour for alaska\nPlease select one of 0 ,3 ,6 ,9 ,12 ,15 ,18 ,21".data)
      = true) ∧
    create_item_run_hour_check Region.alaska 2 =
      Except.error
        "True is not a valid cycle run hour for alaska\nPlease select one of 0 ,3 ,6 ,9 ,12 ,15 ,18 ,21" ∧
    create_item_run_hour_check Region.alaska 3 = Except.ok () := by
  decide

/-- Claim C1: a windowed pattern `"<N1>-<N2> <unit> <stat>"` (digit tokens
`N1`, `N2`; space-free `unit` and `stat`; no stray instantaneous match, as
holds for the reference-inventory aggregation keywords) renders at forecast
hour `fh` (0-48) as: `"(fh-1)-(fh) <unit> <stat>"` when the start marker
`N1` is the string `"1"`; otherwise `"0-(fh/24) day <stat>"` when `fh` is
divisible by 24, and `"0-(fh) <unit> <stat>"` with the unit unchanged
otherwise. -/
theorem c1_windowed_pattern_rendering (ds1 ds2 u st : List Char) (fh : Int)
    (_hfh : 0 ≤ fh ∧ fh ≤ 48)
    (h1 : ds1 ≠ []) (h1d : ds1.all Char.isDigit = true)
    (h2 : ds2 ≠ []) (h2d : ds2.all Char.isDigit = true)
    (hu : ' ' ∉ u) (hst : ' ' ∉ st)
    (hni : ¬ instantFormPresent (ds1 ++ '-' :: (ds2 ++ ' ' :: (u ++ ' ' :: st)))) :
    Variable.format_forecast_valid_string
      ⟨0, "", "", ⟨ds1 ++ '-' :: (ds2 ++ ' ' :: (u ++ ' ' :: st))⟩, ""⟩ fh =
    Except.ok
      (if ds1 = ['1'] then
        toString (fh - 1) ++ "-" ++ toString fh ++ " " ++ String.mk u ++ " " ++ String.mk st
      else if fh % 24 = 0 then
        "0-" ++ toString (fh / 24) ++ " day " ++ String.mk st
      else
        "0-" ++ toString fh ++ " " ++ String.mk u ++ " " ++ String.mk st) := by
  obtain ⟨d1, dt1, rfl⟩ := List.exists_cons_of_ne_nil h1
  have hd1 : d1.isDigit = true := by
    have hall := h1d
    simp only [List.all_cons, Bool.and_eq_true] at hall
    exact hall.1
  have hna : ((d1 :: dt1) ++ '-' :: (ds2 ++ ' ' :: (u ++ ' ' :: st))) ≠
      "analysis".data := by
    intro he
    have hhead : d1 = 'a' := by
      have h3 := congrArg (fun l => l.head?) he
      simpa using h3
    rw [hhead] at hd1
    exact Bool.noConfusion hd1
  have hmi : hasInstantMatch ((d1 :: dt1) ++ '-' :: (ds2 ++ ' ' :: (u ++ ' ' :: st))) =
      false := by
    rcases hb : hasInstantMatch ((d1 :: dt1) ++ '-' :: (ds2 ++ ' ' :: (u ++ ' ' :: st))) with
      _ | _
    · rfl
    · exact absurd (hasInstantMatch_imp_present _ hb) hni
  have hsw : searchWindowed ((d1 :: dt1) ++ '-' :: (ds2 ++ ' ' :: (u ++ ' ' :: st))) =
      some (d1 :: dt1, u, st) := by
    have htw := tryWindowedAt_structured (d1 :: dt1) ds2 u st (by simp) h1d h2 h2d hu hst
    simp only [List.cons_append] at htw ⊢
    rw [searchWindowed, htw]
  show formatPatternChars ((d1 :: dt1) ++ '-' :: (ds2 ++ ' ' :: (u ++ ' ' :: st))) fh = _
  unfold formatPatternChars
  rw [if_neg hna, hmi, hsw]
  by_cases hone : (d1 :: dt1) = ['1']
  · simp [hone]
  · by_cases h24 : fh % 24 = 0
    · simp [hone, h24]
    · simp [hone, h24]

/-- Claim C1 witness: the theorem applied to the spec's example, pattern
`"0-24 hour acc"` at forecast hour 48, rendering `"0-2 day acc"`. -/
theorem c1_windowed_pattern_rendering_witness :
    Variable.format_forecast_valid_string ⟨0, "", "", "0-24 hour acc", ""⟩ 48 =
      Except.ok "0-2 day acc" := by
  have hni : ¬ instantFormPresent
      (['0'] ++ '-' :: (['2', '4'] ++ ' ' :: ("hour".data ++ ' ' :: "acc".data))) := by
    intro hp
    obtain ⟨p, c, m, q, hd, he⟩ := hp
    have hm : hasInstantMatch
        (['0'] ++ '-' :: (['2', '4'] ++ ' ' :: ("hour".data ++ ' ' :: "acc".data))) = true := by
      rw [he]
      exact present_imp_hasInstantMatch p c m q hd
    exact absurd hm (by decide)
  have h := c1_windowed_pattern_rendering ['0'] ['2', '4'] "hour".data "acc".data 48
    (by decide) (by decide) (by decide) (by decide) (by decide) (by decide) (by decide) hni
  exact h.trans (by decide)

/-- Claim C5: an instantaneous pattern `"<N> <unit> fcst"` (digit token `N`,
arbitrary `unit` - including `"min"`) renders at any forecast hour `fh` as
exactly `"<fh> hour fcst"`, independent of `N` and `unit`. -/
theorem c5_instantaneous_pattern_rendering (ds u : List Char) (fh : Int)
    (h1 : ds ≠ []) (h1d : ds.all Char.isDigit = true) :
    Variable.format_forecast_valid_string
      ⟨0, "", "", ⟨ds ++ ' ' :: (u ++ [' ', 'f', 'c', 's', 't'])⟩, ""⟩ fh =
    Except.ok (toString fh ++ " hour fcst") := by
  obtain ⟨d1, dt1, rfl⟩ := List.exists_cons_of_ne_nil h1
  have hd1 : d1.isDigit = true := by
    have hall := h1d
    simp only [List.all_cons, Bool.and_eq_true] at hall
    exact hall.1
  have hna : ((d1 :: dt1) ++ ' ' :: (u ++ [' ', 'f', 'c', 's', 't'])) ≠
      "analysis".data := by
    intro he
    have hhead : d1 = 'a' := by
      have h3 := congrArg (fun l => l.head?) he
      simpa using h3
    rw [hhead] at hd1
    exact Bool.noConfusion hd1
  have hmi : hasInstantMatch ((d1 :: dt1) ++ ' ' :: (u ++ [' ', 'f', 'c', 's', 't'])) =
      true := by
    obtain hcon | ⟨init, dlast, hinit⟩ := List.eq_nil_or_concat (d1 :: dt1)
    · exact absurd hcon (by simp)
    · rw [List.concat_eq_append] at hinit
      have hdl : dlast.isDigit = true := by
        have hm : dlast ∈ d1 :: dt1 := by
          rw [hinit]; exact List.mem_append_right init (List.mem_cons_self ..)
        exact List.all_eq_true.mp h1d dlast hm
      have hshape : (d1 :: dt1) ++ ' ' :: (u ++ [' ', 'f', 'c', 's', 't']) =
          init ++ dlast :: ' ' :: (u ++ ' ' :: 'f' :: 'c' :: 's' :: 't' :: []) := by
        rw [hinit]
        simp
      rw [hshape]
      exact present_imp_hasInstantMatch init dlast u [] hdl
  show formatPatternChars ((d1 :: dt1) ++ ' ' :: (u ++ [' ', 'f', 'c', 's', 't'])) fh = _
  unfold formatPatternChars
  rw [if_neg hna, hmi]
  rfl

/-- Claim C5 witness: the theorem applied to the minute-level pattern
`"15 min fcst"` at forecast hour 2. -/
theorem c5_instantaneous_pattern_rendering_witness :
    Variable.format_forecast_valid_string ⟨0, "", "", "15 min fcst", ""⟩ 2 =
      Except.ok "2 hour fcst" := by
  have h := c5_instantaneous_pattern_rendering ['1', '5'] "min".data 2
    (by decide) (by decide)
  exact h.trans (by decide)

/-- Claim C6 (counterexample): the pattern `"not 1 valid fcst pattern"` is
none of the three recognized forms (not the literal `"analysis"`, not an
instantaneous form `"<N> <unit> fcst"`, not a windowed form
`"<N1>-<N2> <unit> <stat>"`), yet the formatter does not raise: because the
source uses `re.search`, the embedded substring `"1 valid fcst"` matches the
instantaneous regex and the formatter returns `"5 hour fcst"` at forecast
hour 5. -/
theorem c6_counterexample :
    ("not 1 valid fcst pattern" : String) ≠ "analysis" ∧
    specInstantForm "not 1 valid fcst pattern" = false ∧
    specWindowedForm "not 1 valid fcst pattern" = false ∧
    Variable.format_forecast_valid_string ⟨0, "", "", "not 1 valid fcst pattern", ""⟩ 5 =
      Except.ok "5 hour fcst" := by
  refine ⟨by decide, by decide, by decide, by decide⟩

/-- Claim C6 (amended): the formatter applies its regexes with substring
search, so the failing patterns are exactly those other than the literal
`"analysis"` in which no substring matches the instantaneous regex and no
substring matches the windowed regex; every such pattern raises, at every
forecast hour, a pattern-parse error whose message names the offending
pattern, and no fallback string is ever returned for it. -/
theorem c6_unrecognized_pattern_raises (pattern : String) (fh : Int)
    (h1 : pattern ≠ "analysis")
    (h2 : ¬ instantFormPresent pattern.data)
    (h3 : ¬ windowedFormPresent pattern.data) :
    Variable.format_forecast_valid_string ⟨0, "", "", pattern, ""⟩ fh =
      Except.error (pattern ++ " could not be parsed into a forecast_valid string") := by
  have hna : pattern.data ≠ "analysis".data := by
    intro he
    exact h1 (by
      have := congrArg String.mk he
      simpa using this)
  have hmi : hasInstantMatch pattern.data = false := by
    rcases hb : hasInstantMatch pattern.data with _ | _
    · rfl
    · exact absurd (hasInstantMatch_imp_present _ hb) h2
  have hsw : searchWindowed pattern.data = none := by
    rcases hb : searchWindowed pattern.data with _ | r
    · rfl
    · exact absurd (searchWindowed_some_present _ r hb) h3
  show formatPatternChars pattern.data fh = _
  unfold formatPatternChars
  rw [if_neg hna, hmi, hsw]
  simp

/-- Claim C6 witness: the amended theorem applied to the unparseable pattern
`"foo"` at forecast hour 0. -/
theorem c6_unrecognized_pattern_raises_witness :
    Variable.format_forecast_valid_string ⟨0, "", "", "foo", ""⟩ 0 =
      Except.error "foo could not be parsed into a forecast_valid string" := by
  have hni : ¬ instantFormPresent ("foo" : String).data := by
    intro hp
    obtain ⟨p, c, m, q, hd, he⟩ := hp
    have hm : hasInstantMatch ("foo" : String).data = true := by
      rw [he]
      exact present_imp_hasInstantMatch p c m q hd
    exact absurd hm (by decide)
  have h := c6_unrecognized_pattern_raises "foo" 0 (by decide) hni
    (fun hp => absurd (searchWindowed_isSome_of_present _ hp) (by decide))
  exact h.trans (by decide)

/-- Claim C10: for both cycle types, `generate_forecast_hours` returns
exactly `[1, ..., max_forecast_hour]`; every listed hour passes
`validate_forecast_hour`, forecast hour 0 passes `validate_forecast_hour` as
well, yet 0 is never in the generated list. -/
theorem c10_generate_forecast_hours :
    ForecastCycleType.generate_forecast_hours ⟨"standard"⟩ =
      [1, 2, 3, 4, 5, 6, 7, 8, 9, 10, 11, 12, 13, 14, 15, 16, 17, 18] ∧
    ForecastCycleType.generate_forecast_hours ⟨"extended"⟩ =
      [1, 2, 3, 4, 5, 6, 7, 8, 9, 10, 11, 12, 13, 14, 15, 16, 17, 18, 19, 20, 21, 22,
       23, 24, 25, 26, 27, 28, 29, 30, 31, 32, 33, 34, 35, 36, 37, 38, 39, 40, 41, 42,
       43, 44, 45, 46, 47, 48] ∧
    ((ForecastCycleType.generate_forecast_hours ⟨"standard"⟩).all
      (fun h => isOkB (ForecastCycleType.validate_forecast_hour ⟨"standard"⟩ h)) = true) ∧
    ((ForecastCycleType.generate_forecast_hours ⟨"extended"⟩).all
      (fun h => isOkB (ForecastCycleType.validate_forecast_hour ⟨"extended"⟩ h)) = true) ∧
    ForecastCycleType.validate_forecast_hour ⟨"standard"⟩ 0 = Except.ok () ∧
    ForecastCycleType.validate_forecast_hour ⟨"extended"⟩ 0 = Except.ok () ∧
    ((ForecastCycleType.generate_forecast_hours ⟨"standard"⟩).contains 0 = false) ∧
    ((ForecastCycleType.generate_forecast_hours ⟨"extended"⟩).contains 0 = false) := by
  decide

/-- Positional form of `deriveByteLengths`: each non-final record's length is
the difference of consecutive start offsets. -/
theorem deriveByteLengths_get : ∀ (offsets : List Int) (i : Nat)
    (h : i + 1 < offsets.length),
    (deriveByteLengths offsets).get? i =
      some (some (offsets.get ⟨i + 1, h⟩ - offsets.get ⟨i, Nat.lt_of_succ_lt h⟩))
  | [], _, h => by simp at h
  | [_], _, h => by simp at h
  | a :: b :: rest, 0, h => by simp [deriveByteLengths]
  | a :: b :: rest, i + 1, h => by
      have ih := deriveByteLengths_get (b :: rest) i (by simpa using h)
      simpa [deriveByteLengths] using ih

/-- The final record's derived length is null. -/
theorem deriveByteLengths_last : ∀ (offsets : List Int), offsets ≠ [] →
    (deriveByteLengths offsets).get? (offsets.length - 1) = some none
  | [], h => absurd rfl h
  | [_], _ => rfl
  | a :: b :: rest, _ => by
      have ih := deriveByteLengths_last (b :: rest) (by simp)
      have hlen : (a :: b :: rest).length - 1 = ((b :: rest).length - 1) + 1 := by simp
      show ((some (b - a) :: deriveByteLengths (b :: rest)).get? ((a :: b :: rest).length - 1))
        = some none
      rw [hlen]
      simpa using ih

/-- Claim C8: for a parsed index given as start offsets in row order, the
derived byte length of record `i` equals `start_offset(i+1) - start_offset(i)`,
the final record's byte length is left null, and the spec's example
`[0, 120, 340]` yields `[120, 220, null]`. -/
theorem c8_index_byte_lengths (offsets : List Int) (i : Nat)
    (h : i + 1 < offsets.length) :
    (deriveByteLengths offsets).get? i =
      some (some (offsets.get ⟨i + 1, h⟩ - offsets.get ⟨i, Nat.lt_of_succ_lt h⟩)) ∧
    (deriveByteLengths offsets).get? (offsets.length - 1) = some none ∧
    deriveByteLengths [0, 120, 340] = [some 120, some 220, none] := by
  refine ⟨deriveByteLengths_get offsets i h, ?_, by decide⟩
  have hne : offsets ≠ [] := by
    intro he
    rw [he] at h
    simp at h
  exact deriveByteLengths_last offsets hne

/-- Claim C8 witness: the theorem applied to the spec's example offsets at
record 0. -/
theorem c8_index_byte_lengths_witness :
    (0 + 1 < ([0, 120, 340] : List Int).length) ∧
    ((deriveByteLengths [0, 120, 340]).get? (([0, 120, 340] : List Int).length - 1) =
      some none ∧
     deriveByteLengths [0, 120, 340] = [some 120, some 220, none]) :=
  ⟨by decide, (c8_index_byte_lengths [0, 120, 340] 0 (by decide)).2⟩

/-- A concrete batch of 10 task outcomes, 3 of which are not-found failures,
used to settle claim C9. -/
def c9Tasks : List (Except TaskError Nat) :=
  [Except.ok 1, Except.ok 2, Except.error TaskError.notFound, Except.ok 3,
   Except.error TaskError.notFound, Except.ok 4, Except.ok 5,
   Except.error TaskError.notFound, Except.ok 6, Except.ok 7]

/-- Claim C9 (counterexample): `generate_inventory_csv_gzs` contains no
per-task error handling, so a batch of 10 tasks of which 3 raise a not-found
error does not return the 7 successful outputs: the batch itself fails with
the not-found error. -/
theorem c9_counterexample :
    starmapCollect c9Tasks = Except.error TaskError.notFound ∧
    starmapCollect c9Tasks ≠ Except.ok [1, 2, 3, 4, 5, 6, 7] ∧
    isOkB (starmapCollect c9Tasks) = false := by
  decide

/-- Claim C9 (amended): the batch fan-out catches nothing: a task raising any
error - the not-found error included - propagates and terminates the batch,
while a batch whose tasks all succeed returns all their outputs. -/
theorem c9_no_notfound_catching (xs ys : List (Except TaskError Nat)) (e : TaskError)
    (h : xs.all isOkB = true) :
    starmapCollect (xs ++ Except.error e :: ys) = Except.error e ∧
    ∃ l : List Nat, starmapCollect xs = Except.ok l ∧ l.length = xs.length := by
  induction xs with
  | nil => exact ⟨rfl, [], rfl, rfl⟩
  | cons x xs2 ih =>
      cases x with
      | error e2 => simp [isOkB] at h
      | ok a =>
          have h2 : xs2.all isOkB = true := by simpa [isOkB] using h
          obtain ⟨h1, l, hl, hlen⟩ := ih h2
          refine ⟨?_, a :: l, ?_, ?_⟩
          · show (starmapCollect (xs2 ++ Except.error e :: ys)).map (fun t => a :: t) =
              Except.error e
            rw [h1]
            rfl
          · show (starmapCollect xs2).map (fun t => a :: t) = Except.ok (a :: l)
            rw [hl]
            rfl
          · simp [hlen]

/-- Claim C9 witness: the amended theorem applied to a two-task batch whose
second task raises the not-found error. -/
theorem c9_no_notfound_catching_witness :
    (([Except.ok 1] : List (Except TaskError Nat)).all isOkB = true) ∧
    (starmapCollect (([Except.ok 1] : List (Except TaskError Nat)) ++
        Except.error TaskError.notFound :: []) = Except.error TaskError.notFound ∧
     ∃ l : List Nat,
       starmapCollect ([Except.ok 1] : List (Except TaskError Nat)) = Except.ok l ∧
       l.length = ([Except.ok 1] : List (Except TaskError Nat)).length) :=
  ⟨by decide,
   c9_no_notfound_catching [Except.ok 1] [] TaskError.notFound (by decide)⟩

end NoaaHrrr
